/-
Verification of scripts/enrich-font-catalog.py.

The script reads a JSON catalog, filters and enriches each font record,
sorts the result and writes one JSON document.  We embed the per-record
data model and the whole pipeline shallowly:

* JSON text fields are modelled by `JStr` (absent key / JSON null /
  string), because Python's `font.get(k, default)` distinguishes a
  missing key (default used) from a null value (returns `None`).
* Every regex in the script is an alternation of literal strings
  (the single character class `細[字い]` is expanded to its two
  alternatives), compiled with `re.IGNORECASE`; `pattern.search(s)`
  is therefore "some alternative is a substring of `s`, ASCII
  case-insensitively".  We store the alternatives lowercased and search
  in the lowercased haystack, which is equivalent for these literal
  patterns (the non-ASCII characters in them have no case).
* Python's stable `list.sort` is modelled by `List.insertionSort`,
  which is sorted, a permutation of its input and stable -- the three
  properties that determine a stable sort uniquely; `sorted(set(...))`
  is modelled by `dedup` followed by the same sort, which produces the
  canonical sorted duplicate-free list.  String comparison is the
  code-point lexicographic order, exactly Python's `str` comparison.
* A Python exception escaping the per-record loop aborts the run; the
  loop is modelled in the `Except` monad.
-/
import Mathlib

set_option linter.unusedVariables false

/-- A JSON-ish text field: the key is absent, the value is JSON null,
or the value is a string. -/
inductive JStr where
  | missing : JStr
  | null : JStr
  | str : String → JStr
deriving DecidableEq

/-- `f"{font.get(k, '')}"`: a missing key formats as the default `""`,
a null value formats as the string `"None"` (Python `str(None)`). -/
def JStr.pyFmt : JStr → String
  | .missing => ""
  | .null => "None"
  | .str s => s

/-- `font.get(k, "") or ""`: missing, null and empty all collapse to `""`. -/
def JStr.orEmpty : JStr → String
  | .str s => s
  | _ => ""

/-- A raw input record (`RawFontRecord`).  `categories = none` covers both a
missing key and JSON null, which `font.get("categories") or []` treats alike;
likewise `local_file = none` covers missing and null, which
`font.get("local_file")` treats alike. -/
structure Font where
  name : JStr
  description : JStr
  categories : Option (List String)
  downloaded : Bool
  local_file : Option String
  source_count : Option Int
deriving DecidableEq

/-- An output record as assembled by `enrich_font` (`FontMetadata`). -/
structure Enriched where
  name : String
  fontFamily : String
  localFile : String
  category : String
  tags : List String
  weight : List Int
  popularity : Int
  description : String
  sourceCount : Int
deriving DecidableEq

/-- A literal-alternation regex: the list of its (lowercased) alternatives. -/
def Pat := List String

/-- Python `str.lower()`.  Only ASCII letters occur cased in the rule
tables and the relevant inputs; the Japanese characters have no case. -/
def lowerStr (s : String) : String :=
  String.mk (s.data.map Char.toLower)

/-- The whitespace characters `str.strip()` removes (the ASCII ones;
the rare Unicode space characters are not relevant here). -/
def isPySpace (c : Char) : Bool :=
  c == ' ' || c == '\t' || c == '\n' || c == '\r' || c == '\x0b' || c == '\x0c'

/-- Python `str.strip()`: drop leading and trailing whitespace. -/
def stripStr (s : String) : String :=
  String.mk (((s.data.dropWhile isPySpace).reverse.dropWhile isPySpace).reverse)

/-- Python `str` comparison on the underlying code-point sequences:
`as ≤ bs` in the lexicographic order. -/
def strLeB : List Char → List Char → Bool
  | [], _ => true
  | _ :: _, [] => false
  | a :: as, b :: bs =>
    if a < b then true
    else if b < a then false
    else strLeB as bs

/-- Python `a <= b` on strings. -/
def strLe (a b : String) : Bool :=
  strLeB a.data b.data

/-- `needle.data` occurs as a contiguous run inside `hay`. -/
def strContains (hay needle : String) : Bool :=
  hay.data.tails.any fun t => needle.data.isPrefixOf t

/-- `pattern.search(s)` for a literal-alternation pattern compiled with
`re.IGNORECASE`: some alternative occurs in the lowercased haystack. -/
def psearch (p : Pat) (s : String) : Bool :=
  p.any fun needle => strContains (lowerStr s) needle

/-- `FONTFREE_CATEGORY_MAP`: fontfree.me category → FontCategory. -/
def FONTFREE_CATEGORY_MAP : List (String × String) :=
  [("kakugo", "sans"), ("gothic", "sans"), ("sans", "sans"),
   ("mincho", "serif"), ("serif", "serif"),
   ("marugo", "sans"), ("round", "sans"),
   ("tegaki", "handwriting"), ("handwriting", "handwriting"),
   ("script", "handwriting"), ("fude", "handwriting"), ("brush", "handwriting"),
   ("kawaii", "display"), ("pop", "display"), ("design", "display"),
   ("display", "display"), ("pixel", "display"), ("dot", "display"),
   ("horror", "display"), ("monospace", "monospace")]

/-- `NAME_CATEGORY_RULES`: ordered name-based heuristics. -/
def NAME_CATEGORY_RULES : List (Pat × String) :=
  [(["ゴシック", "gothic", "ゴチック", "角"], "sans"),
   (["明朝", "mincho", "serif"], "serif"),
   (["丸", "round", "maru", "ラウンド"], "sans"),
   (["手書", "tegaki", "handwrit", "script", "手書き"], "handwriting"),
   (["筆", "fude", "brush", "毛筆", "楷書", "行書", "草書"], "handwriting"),
   (["ポップ", "pop", "kawaii", "かわいい"], "display"),
   (["ドット", "dot", "pixel", "ピクセル", "レトロ"], "display"),
   (["デザイン", "display", "装飾", "ファンシー", "fancy"], "display"),
   (["等幅", "mono", "コード", "code"], "monospace")]

/-- `TAG_RULES`: ordered (pattern, tags-to-assign) rules. -/
def TAG_RULES : List (Pat × List String) :=
  [(["手書き", "カジュアル", "手書"], ["手書き風", "カジュアル"]),
   (["ポップ", "楽しい", "fun", "pop", "ポップ体"], ["ポップ"]),
   (["レトロ", "昭和", "vintage", "retro", "懐かし"], ["レトロ"]),
   (["かわいい", "可愛い", "cute", "kawaii", "丸み", "丸い", "ラウンド"], ["かわいい"]),
   (["力強い", "太い", "極太", "bold", "heavy", "ウェイト", "力強", "インパクト"],
    ["力強い", "インパクト"]),
   (["エレガント", "上品", "elegant", "優雅", "美し"], ["エレガント", "高級"]),
   (["ホラー", "恐怖", "horror", "怖い", "おどろおどろ"], ["クール", "デザイン"]),
   (["モダン", "modern", "スタイリッシュ", "stylish", "洗練"], ["モダン"]),
   (["フォーマル", "formal", "ビジネス", "business", "公式"], ["フォーマル", "ビジネス"]),
   (["ナチュラル", "natural", "自然", "organic", "やさし", "優し"], ["ナチュラル"]),
   (["クール", "cool", "シャープ", "sharp", "鋭い"], ["クール"]),
   (["テクノ", "tech", "digital", "デジタル", "未来", "futur"], ["テクノ"]),
   (["読みやすい", "legible", "readable", "視認", "ユニバーサル", "ud"], ["読みやすい"]),
   (["細字", "細い", "thin", "light", "細め", "ライト"], ["細字"]),
   (["太字", "bold", "heavy", "太め", "ヘビー", "ブラック", "black"], ["太字"]),
   (["ニュース", "news", "速報", "テロップ", "telop"], ["ニュース"]),
   (["デザイン", "design", "装飾", "decorat", "アート", "art"], ["デザイン"])]

/-- `CATEGORY_EXTRA_TAGS`: extra tags from fontfree categories. -/
def CATEGORY_EXTRA_TAGS : List (String × List String) :=
  [("kawaii", ["かわいい", "ポップ"]),
   ("pop", ["ポップ", "カジュアル"]),
   ("marugo", ["かわいい"]),
   ("round", ["かわいい"]),
   ("fude", ["力強い"]),
   ("brush", ["力強い"]),
   ("tegaki", ["手書き風", "カジュアル"]),
   ("handwriting", ["手書き風"]),
   ("horror", ["クール", "デザイン"]),
   ("pixel", ["レトロ", "テクノ"]),
   ("dot", ["レトロ", "テクノ"])]

/-- The `fallback_tags` table of `extract_tags`. -/
def fallback_tags : List (String × List String) :=
  [("sans", ["読みやすい", "モダン"]),
   ("serif", ["エレガント", "フォーマル"]),
   ("display", ["デザイン", "インパクト"]),
   ("handwriting", ["手書き風", "カジュアル"]),
   ("monospace", ["テクノ", "モダン"])]

/-- The fixed tag vocabulary: every tag that appears in `TAG_RULES`,
`CATEGORY_EXTRA_TAGS` or the fallback table (including its catch-all). -/
def VOCAB : List String :=
  ["手書き風", "カジュアル", "ポップ", "レトロ", "かわいい", "力強い", "インパクト",
   "エレガント", "高級", "クール", "デザイン", "モダン", "フォーマル", "ビジネス",
   "ナチュラル", "テクノ", "読みやすい", "細字", "太字", "ニュース"]

/-- `infer_category(font)`: fontfree categories first (lowercased and
trimmed, first table hit wins), then the ordered name rules over
`f"{name} {description}"`, then the default `"display"`. -/
def infer_category (font : Font) : String :=
  match (font.categories.getD []).findSome?
      (fun cat =>
        (FONTFREE_CATEGORY_MAP.find? fun p => p.1 == stripStr (lowerStr cat)).map (·.2)) with
  | some c => c
  | none =>
    let combined := font.name.pyFmt ++ " " ++ font.description.pyFmt
    match NAME_CATEGORY_RULES.findSome?
        (fun r => if psearch r.1 combined then some r.2 else none) with
    | some c => c
    | none => "display"

/-- `sorted(tags)` on the accumulated set, modelled on lists:
drop duplicates, then sort ascending by the code-point order. -/
def sortedDedup (l : List String) : List String :=
  List.insertionSort (fun a b => strLe a b = true) l.dedup

/-- `extract_tags(font)`: union the tag lists of every matching
`TAG_RULES` entry over `f"{name} {desc}"` (both defaulted through
`or ""`), union category extra tags, fall back to the per-category
default set when still empty, and return the sorted deduplicated list. -/
def extract_tags (font : Font) : List String :=
  let desc := font.description.orEmpty
  let name := font.name.orEmpty
  let combined := name ++ " " ++ desc
  let fromRules := TAG_RULES.foldl
    (fun acc r => if psearch r.1 combined then acc ++ r.2 else acc) []
  let fromCats := (font.categories.getD []).foldl
    (fun acc cat =>
      match CATEGORY_EXTRA_TAGS.find? fun p => p.1 == stripStr (lowerStr cat) with
      | some p => acc ++ p.2
      | none => acc) fromRules
  let tags :=
    if fromCats = [] then
      ((fallback_tags.find? fun p => p.1 == infer_category font).map (·.2)).getD ["デザイン"]
    else fromCats
  sortedDedup tags

/-- `compute_popularity(font)`: `sc = font.get("source_count", 1)`,
then 7 / 5 / 3 by the two threshold tests. -/
def compute_popularity (font : Font) : Int :=
  let sc := font.source_count.getD 1
  if 3 ≤ sc then 7 else if 2 ≤ sc then 5 else 3

/-- The Python exceptions the per-record code can raise. -/
inductive PyError where
  | attributeError : PyError
deriving DecidableEq

instance {ε α : Type} [DecidableEq ε] [DecidableEq α] : DecidableEq (Except ε α) := fun x y =>
  match x, y with
  | .ok a, .ok b =>
    if h : a = b then .isTrue (by rw [h])
    else .isFalse fun hh => h (Except.ok.inj hh)
  | .error a, .error b =>
    if h : a = b then .isTrue (by rw [h])
    else .isFalse fun hh => h (Except.error.inj hh)
  | .ok a, .error b => .isFalse fun hh => Except.noConfusion hh
  | .error a, .ok b => .isFalse fun hh => Except.noConfusion hh

/-- The output dict literal at the end of `enrich_font`. -/
def mkEnriched (font : Font) (name : String) (local_file : String) : Enriched :=
  { name := name
    fontFamily := name
    localFile := local_file
    category := infer_category font
    tags := extract_tags font
    weight := [400, 400]
    popularity := compute_popularity font
    description := font.description.orEmpty
    sourceCount := font.source_count.getD 1 }

/-- `enrich_font(font)`: `None` when not downloaded, when `local_file` is
falsy, or when the stripped name is empty; the enriched dict otherwise.
`font.get("name", "").strip()` raises `AttributeError` when the name field
holds JSON null, because `.strip()` is called on `None`. -/
def enrich_font (font : Font) : Except PyError (Option Enriched) :=
  if font.downloaded = false then .ok none
  else
    match font.local_file with
    | none => .ok none
    | some lf =>
      if lf = "" then .ok none
      else
        match font.name with
        | .null => .error .attributeError
        | n =>
          let name := stripStr n.orEmpty
          if name = "" then .ok none
          else .ok (some (mkEnriched font name lf))

/-- The per-record loop of `main`: collect enriched records in input order
and count skips; an exception escapes the loop and aborts the run. -/
def processFonts : List Font → Except PyError (List Enriched × Nat)
  | [] => .ok ([], 0)
  | font :: rest =>
    match enrich_font font with
    | .error e => .error e
    | .ok none =>
      match processFonts rest with
      | .error e => .error e
      | .ok (kept, skipped) => .ok (kept, skipped + 1)
    | .ok (some e) =>
      match processFonts rest with
      | .error er => .error er
      | .ok (kept, skipped) => .ok (e :: kept, skipped)

/-- The sort key comparison of `enriched.sort(key=lambda f: (-f["popularity"],
f["name"]))`: `a` may come before `b` iff `(-a.popularity, a.name) ≤
(-b.popularity, b.name)` in the ascending tuple order. -/
def fontLe (a b : Enriched) : Bool :=
  decide (b.popularity < a.popularity) ||
    (decide (a.popularity = b.popularity) && strLe a.name b.name)

/-- `enriched.sort(...)`: Python's stable sort under `fontLe`. -/
def sortFonts (l : List Enriched) : List Enriched :=
  List.insertionSort (fun a b => fontLe a b = true) l

/-- `counts[k] = counts.get(k, 0) + 1` on an insertion-ordered dict. -/
def bump (counts : List (String × Nat)) (k : String) : List (String × Nat) :=
  if counts.any fun p => p.1 == k then
    counts.map fun p => if p.1 == k then (p.1, p.2 + 1) else p
  else counts ++ [(k, 1)]

/-- The `cat_counts` accumulation of `main` over the sorted records. -/
def catCounts (l : List Enriched) : List (String × Nat) :=
  l.foldl (fun c e => bump c e.category) []

/-- The `tag_counts` accumulation of `main` over the sorted records. -/
def tagCounts (l : List Enriched) : List (String × Nat) :=
  l.foldl (fun c e => e.tags.foldl bump c) []

/-- `dict(sorted(tag_counts.items(), key=lambda x: -x[1])[:15])`: a stable
descending sort by count, truncated to 15 entries. -/
def topTags (l : List Enriched) : List (String × Nat) :=
  (List.insertionSort (fun a b => b.2 ≤ a.2) (tagCounts l)).take 15

/-- The `stats` block of the output document. -/
structure Stats where
  total : Nat
  skipped : Nat
  categories : List (String × Nat)
  toptags : List (String × Nat)
deriving DecidableEq

/-- The output document (`$schema` is the `schema` field here). -/
structure Output where
  schema : String
  version : String
  generated : String
  stats : Stats
  fonts : List Enriched
deriving DecidableEq

/-- `main` after the input file has been read: filter/enrich every record,
sort, aggregate, and assemble the output document.  `runDate` models the
wall-clock date at execution time; the script never reads the clock (the
`generated` field is the hardcoded literal), so the parameter is unused. -/
def run_main (catalog : List Font) (runDate : String) : Except PyError Output :=
  match processFonts catalog with
  | .error e => .error e
  | .ok (enriched, skipped) =>
    let sorted := sortFonts enriched
    .ok { schema := "font-catalog-enriched"
          version := "1.0.0"
          generated := "2026-02-26"
          stats := { total := sorted.length
                     skipped := skipped
                     categories := catCounts sorted
                     toptags := topTags sorted }
          fonts := sorted }

/-- The three filter checks of `enrich_font`, as one boolean predicate:
downloaded, truthy `local_file`, and non-blank stripped name.  (For a
JSON-null name `orEmpty` yields `""`, so `keepB` is `false` there; the
code itself raises before reaching that test, see `crashTrigger`.) -/
def keepB (f : Font) : Bool :=
  f.downloaded && !(f.local_file.getD "" == "") && !(stripStr f.name.orEmpty == "")

/-- The input shape on which `enrich_font` raises: a JSON-null `name`
reached after the downloaded and local-file checks both pass. -/
def crashTrigger (f : Font) : Bool :=
  f.downloaded && !(f.local_file.getD "" == "") && (f.name == JStr.null)

/-- The enriched record `enrich_font` builds for a kept input. -/
def enrichedOf (f : Font) : Enriched :=
  mkEnriched f (stripStr f.name.orEmpty) (f.local_file.getD "")

/-- The round-pattern scenario record: hiragana name, nothing else. -/
def maruFont : Font :=
  { name := .str "まるもじ", description := .missing, categories := none,
    downloaded := true, local_file := some "maru.ttf", source_count := none }

/-- The gothic scenario record of the spec. -/
def testFont : Font :=
  { name := .str "テスト角ゴシック", description := .str "力強いゴシック体",
    categories := some ["gothic"], downloaded := true,
    local_file := some "test.ttf", source_count := some 3 }

/-- A downloaded record with a local file whose `name` field is JSON null. -/
def nullNameFontA : Font :=
  { name := .null, description := .missing, categories := none,
    downloaded := true, local_file := some "a.ttf", source_count := none }

/-- A second JSON-null-name record (different file), same failure shape. -/
def nullNameFontB : Font :=
  { name := .null, description := .str "説明", categories := none,
    downloaded := true, local_file := some "b.ttf", source_count := some 2 }

/-- A record with `downloaded: false`. -/
def notDownloadedFont : Font :=
  { name := .str "未取得", description := .missing, categories := none,
    downloaded := false, local_file := some "c.ttf", source_count := some 4 }

/-- A downloaded record with no local file. -/
def noFileFont : Font :=
  { name := .str "ファイル無し", description := .missing, categories := none,
    downloaded := true, local_file := none, source_count := some 1 }

/-- A downloaded record whose name strips to the empty string. -/
def blankNameFont : Font :=
  { name := .str "   ", description := .missing, categories := none,
    downloaded := true, local_file := some "d.ttf", source_count := some 1 }

/-- A minimal record carrying only a `source_count`. -/
def fontOfSc (sc : Option Int) : Font :=
  { name := .missing, description := .missing, categories := none,
    downloaded := false, local_file := none, source_count := sc }

/-- Two kept records with equal popularity and equal name (a sort tie). -/
def twinFont1 : Font :=
  { name := .str "ふたご", description := .str "あ", categories := none,
    downloaded := true, local_file := some "twin1.ttf", source_count := some 1 }

def twinFont2 : Font :=
  { name := .str "ふたご", description := .str "い", categories := none,
    downloaded := true, local_file := some "twin2.ttf", source_count := some 1 }

/-- A mixed demonstration input list. -/
def demoList : List Font :=
  [notDownloadedFont, noFileFont, blankNameFont, testFont]

/-- The combined `f"{name} {desc}"` blob of `extract_tags` (both fields
defaulted through `or ""`). -/
def combinedTagText (font : Font) : String :=
  font.name.orEmpty ++ " " ++ font.description.orEmpty

/-- The tags accumulated from the matching `TAG_RULES` entries. -/
def rulesTags (font : Font) : List String :=
  TAG_RULES.foldl
    (fun acc r => if psearch r.1 (combinedTagText font) then acc ++ r.2 else acc) []

/-- The tags after also folding in the category extra tags. -/
def catsTags (font : Font) : List String :=
  (font.categories.getD []).foldl
    (fun acc cat =>
      match CATEGORY_EXTRA_TAGS.find? fun p => p.1 == stripStr (lowerStr cat) with
      | some p => acc ++ p.2
      | none => acc) (rulesTags font)

/-- The final accumulated tag collection before sorting: the per-category
fallback kicks in exactly when nothing was collected. -/
def preTags (font : Font) : List String :=
  if catsTags font = [] then
    ((fallback_tags.find? fun p => p.1 == infer_category font).map (·.2)).getD ["デザイン"]
  else catsTags font

/-- The adjacent-pair ordering the spec states for the output array. -/
def specOrder (a b : Enriched) : Prop :=
  a.popularity > b.popularity ∨ (a.popularity = b.popularity ∧ a.name ≤ b.name)

/-- Equality of the sort key (popularity, name). -/
def sameKey (a b : Enriched) : Prop :=
  a.popularity = b.popularity ∧ a.name = b.name

instance : DecidableRel sameKey := fun a b =>
  decidable_of_iff (a.popularity = b.popularity ∧ a.name = b.name) Iff.rfl

/-! ### Helper lemmas on the record filter -/

theorem enrich_font_crash (f : Font) (h : crashTrigger f = true) :
    enrich_font f = .error .attributeError := by
  unfold crashTrigger at h
  simp only [Bool.and_eq_true, Bool.not_eq_true', beq_iff_eq] at h
  obtain ⟨⟨hd, hlf⟩, hn⟩ := h
  cases hl : f.local_file with
  | none => rw [hl] at hlf; simp at hlf
  | some lf =>
    rw [hl] at hlf
    have hlf' : lf ≠ "" := by simpa using hlf
    simp [enrich_font, hd, hl, hn, hlf']

theorem enrich_font_ok (f : Font) (h : crashTrigger f = false) :
    enrich_font f = .ok (if keepB f then some (enrichedOf f) else none) := by
  unfold crashTrigger at h
  by_cases hd : f.downloaded
  · cases hl : f.local_file with
    | none => simp [enrich_font, keepB, hd, hl]
    | some lf =>
      by_cases hlf : lf = ""
      · simp [enrich_font, keepB, hd, hl, hlf]
      · have hn : f.name ≠ JStr.null := by
          intro hn
          rw [hd, hl, hn] at h
          simp [hlf] at h
        cases hname : f.name with
        | null => exact absurd hname hn
        | missing =>
          have htrim : stripStr "" = "" := rfl
          simp [enrich_font, keepB, enrichedOf, hd, hl, hlf, hname, JStr.orEmpty, htrim]
        | str s =>
          by_cases hs : stripStr s = ""
          · simp [enrich_font, keepB, hd, hl, hlf, hname, JStr.orEmpty, hs]
          · simp [enrich_font, keepB, enrichedOf, hd, hl, hlf, hname, JStr.orEmpty, hs]
  · simp [enrich_font, keepB, Bool.eq_false_iff.mpr hd, hd]

theorem processFonts_ok (fonts : List Font) (h : ∀ f ∈ fonts, crashTrigger f = false) :
    processFonts fonts =
      .ok ((fonts.filter keepB).map enrichedOf,
           (fonts.filter fun f => !keepB f).length) := by
  induction fonts with
  | nil => rfl
  | cons f rest ih =>
    have hf := h f (List.mem_cons_self f rest)
    have hrest := ih fun g hg => h g (List.mem_cons_of_mem f hg)
    by_cases hk : keepB f
    · simp [processFonts, enrich_font_ok f hf, hrest, hk, List.filter_cons]
    · simp [processFonts, enrich_font_ok f hf, hrest, hk, List.filter_cons]

/-! ### The code-point order agrees with the Mathlib order on `String` -/

theorem strLeB_iff_not_lt : ∀ as bs : List Char, strLeB as bs = true ↔ ¬ bs < as
  | [], bs => iff_of_true rfl fun h => by cases h
  | a :: as, [] =>
    iff_of_false (by simp [strLeB]) fun h => h List.Lex.nil
  | a :: as, b :: bs => by
    show (if a < b then true else if b < a then false else strLeB as bs) = true ↔ _
    by_cases hab : a < b
    · rw [if_pos hab]
      refine iff_of_true rfl fun h => ?_
      cases h with
      | cons h' => exact lt_irrefl _ hab
      | rel h' => exact lt_asymm hab h'
    · by_cases hba : b < a
      · rw [if_neg hab, if_pos hba]
        exact iff_of_false (by simp) fun h => h (List.Lex.rel hba)
      · have heq : a = b := le_antisymm (not_lt.mp hba) (not_lt.mp hab)
        subst heq
        rw [if_neg hab, if_neg hba, strLeB_iff_not_lt as bs]
        constructor
        · intro h hlt
          cases hlt with
          | cons h' => exact h h'
          | rel h' => exact hab h'
        · exact fun h hlt => h (List.Lex.cons hlt)

theorem strLe_iff (a b : String) : strLe a b = true ↔ a ≤ b := by
  rw [strLe, strLeB_iff_not_lt]
  rw [show b.data = b.toList from rfl, show a.data = a.toList from rfl]
  rw [← String.lt_iff_toList_lt]
  exact not_lt

theorem fontLe_iff (a b : Enriched) : fontLe a b = true ↔ specOrder a b := by
  simp only [fontLe, specOrder, Bool.or_eq_true, Bool.and_eq_true, decide_eq_true_eq,
    strLe_iff, gt_iff_lt]

theorem fontLe_total (a b : Enriched) : fontLe a b = true ∨ fontLe b a = true := by
  rw [fontLe_iff, fontLe_iff]
  unfold specOrder
  rcases lt_trichotomy a.popularity b.popularity with h | h | h
  · right; left; exact h
  · rcases le_total a.name b.name with hn | hn
    · left; right; exact ⟨h, hn⟩
    · right; right; exact ⟨h.symm, hn⟩
  · left; left; exact h

theorem fontLe_trans (a b c : Enriched)
    (hab : fontLe a b = true) (hbc : fontLe b c = true) : fontLe a c = true := by
  rw [fontLe_iff] at hab hbc ⊢
  unfold specOrder at hab hbc ⊢
  rcases hab with h1 | ⟨h1, h1'⟩ <;> rcases hbc with h2 | ⟨h2, h2'⟩
  · left; exact h2.trans h1
  · left; rw [← h2]; exact h1
  · left; rw [h1]; exact h2
  · right; exact ⟨h1.trans h2, le_trans h1' h2'⟩

/-! ### Helper lemmas on tag extraction -/

theorem extract_tags_eq (f : Font) : extract_tags f = sortedDedup (preTags f) := rfl

theorem mem_rulesFold (combined : String) (rules : List (Pat × List String))
    (acc : List String) (t : String)
    (ht : t ∈ rules.foldl (fun acc r => if psearch r.1 combined then acc ++ r.2 else acc) acc) :
    t ∈ acc ∨ ∃ r, r ∈ rules ∧ t ∈ r.2 := by
  induction rules generalizing acc with
  | nil => exact Or.inl ht
  | cons r rs ih =>
    simp only [List.foldl_cons] at ht
    rcases ih _ ht with h | ⟨r', hr', ht'⟩
    · by_cases hp : psearch r.1 combined
      · rw [if_pos hp] at h
        rcases List.mem_append.mp h with h' | h'
        · exact Or.inl h'
        · exact Or.inr ⟨r, List.mem_cons_self r rs, h'⟩
      · rw [if_neg hp] at h
        exact Or.inl h
    · exact Or.inr ⟨r', List.mem_cons_of_mem r hr', ht'⟩

theorem mem_catsFold (cats : List String) (acc : List String) (t : String)
    (ht : t ∈ cats.foldl
      (fun acc cat =>
        match CATEGORY_EXTRA_TAGS.find? fun p => p.1 == stripStr (lowerStr cat) with
        | some p => acc ++ p.2
        | none => acc) acc) :
    t ∈ acc ∨ ∃ p, p ∈ CATEGORY_EXTRA_TAGS ∧ t ∈ p.2 := by
  induction cats generalizing acc with
  | nil => exact Or.inl ht
  | cons c cs ih =>
    simp only [List.foldl_cons] at ht
    rcases ih _ ht with h | hr
    · cases hf : CATEGORY_EXTRA_TAGS.find? fun p => p.1 == stripStr (lowerStr c) with
      | none => simp only [hf] at h; exact Or.inl h
      | some p =>
        simp only [hf] at h
        rcases List.mem_append.mp h with h' | h'
        · exact Or.inl h'
        · exact Or.inr ⟨p, List.mem_of_find?_eq_some hf, h'⟩
    · exact Or.inr hr

theorem preTags_subset_vocab (f : Font) (t : String) (ht : t ∈ preTags f) : t ∈ VOCAB := by
  unfold preTags at ht
  by_cases hc : catsTags f = []
  · rw [if_pos hc] at ht
    cases hf : fallback_tags.find? fun p => p.1 == infer_category f with
    | none =>
      simp only [hf, Option.map_none', Option.getD_none, List.mem_singleton] at ht
      rw [ht]; decide
    | some p =>
      simp only [hf, Option.map_some', Option.getD_some] at ht
      have hall : ∀ q ∈ fallback_tags, ∀ s ∈ q.2, s ∈ VOCAB := by decide
      exact hall p (List.mem_of_find?_eq_some hf) t ht
  · rw [if_neg hc] at ht
    unfold catsTags at ht
    rcases mem_catsFold _ _ _ ht with h | ⟨p, hp, ht'⟩
    · unfold rulesTags at h
      rcases mem_rulesFold _ _ _ _ h with h' | ⟨r, hr, ht'⟩
      · simp at h'
      · have hall : ∀ q ∈ TAG_RULES, ∀ s ∈ q.2, s ∈ VOCAB := by decide
        exact hall r hr t ht'
    · have hall : ∀ q ∈ CATEGORY_EXTRA_TAGS, ∀ s ∈ q.2, s ∈ VOCAB := by decide
      exact hall p hp t ht'

theorem preTags_ne_nil (f : Font) : preTags f ≠ [] := by
  unfold preTags
  by_cases hc : catsTags f = []
  · rw [if_pos hc]
    cases hf : fallback_tags.find? fun p => p.1 == infer_category f with
    | none => simp
    | some p =>
      simp only [hf, Option.map_some', Option.getD_some]
      have hall : ∀ q ∈ fallback_tags, q.2 ≠ [] := by decide
      exact hall p (List.mem_of_find?_eq_some hf)
  · rw [if_neg hc]; exact hc

theorem mem_sortedDedup (l : List String) (t : String) : t ∈ sortedDedup l ↔ t ∈ l := by
  unfold sortedDedup
  rw [(List.perm_insertionSort _ _).mem_iff, List.mem_dedup]

theorem sortedDedup_nodup (l : List String) : (sortedDedup l).Nodup :=
  (List.perm_insertionSort _ _).symm.nodup (List.nodup_dedup l)

theorem sortedDedup_sorted (l : List String) : (sortedDedup l).Sorted (· ≤ ·) := by
  haveI : IsTotal String (fun a b : String => strLe a b = true) :=
    ⟨fun a b => by rw [strLe_iff, strLe_iff]; exact le_total a b⟩
  haveI : IsTrans String (fun a b : String => strLe a b = true) :=
    ⟨fun a b c hab hbc => by
      rw [strLe_iff] at hab hbc ⊢
      exact le_trans hab hbc⟩
  exact (List.sorted_insertionSort _ _).imp fun h => (strLe_iff _ _).mp h

theorem sortedDedup_ne_nil (l : List String) (h : l ≠ []) : sortedDedup l ≠ [] := by
  intro hnil
  apply h
  have hp := List.perm_insertionSort (fun a b : String => strLe a b = true) l.dedup
  rw [show List.insertionSort (fun a b : String => strLe a b = true) l.dedup
      = sortedDedup l from rfl, hnil] at hp
  exact (List.dedup_eq_nil l).mp hp.symm.eq_nil

/-! ### Claim theorems -/

/-- C1 counterexample: the record with no categories and name "まるもじ" is
classified `display`, not `sans` -- the round rule's alternatives (kanji 丸,
"round", "maru", katakana ラウンド) do not occur in the hiragana name -- and
its tags are not the sans default tag set. -/
theorem c1_counterexample :
    infer_category maruFont ≠ "sans" ∧
      extract_tags maruFont ≠ ["モダン", "読みやすい"] := by decide

/-- C1 amended: for the record with no categories, name "まるもじ" and no
other text, no category rule matches, so the category is the default
`display`; no tag rule or category extra tag fires either, so the tags are
the display-category default tag set, sorted. -/
theorem c1_round_scenario :
    infer_category maruFont = "display" ∧
      catsTags maruFont = [] ∧
      extract_tags maruFont = ["インパクト", "デザイン"] := by decide

/-- C2 counterexample: a downloaded record with a local file whose `name`
field is JSON null makes `enrich_font` raise `AttributeError`
(`None.strip()`), which aborts the per-record loop instead of being
skip-counted. -/
theorem c2_counterexample :
    enrich_font nullNameFontA = .error .attributeError ∧
      processFonts [nullNameFontA] = .error .attributeError := by decide

/-- C2 amended: for every input list in which no record has a JSON-null
`name` passing the downloaded and local-file checks, the per-record loop
never raises: every record is either kept or counted as skipped, and the
two tallies partition the input. -/
theorem c2_per_record_nonfatal :
    ∀ fonts : List Font, (∀ f ∈ fonts, crashTrigger f = false) →
      ∃ kept skipped, processFonts fonts = .ok (kept, skipped) ∧
        kept.length + skipped = fonts.length := by
  intro fonts h
  refine ⟨_, _, processFonts_ok fonts h, ?_⟩
  rw [List.length_map]
  exact (List.length_eq_length_filter_add keepB).symm

/-- C2 witness: the mixed demonstration list is processed without error and
its kept and skipped counts add up to its length. -/
theorem c2_per_record_nonfatal_witness :
    ∃ kept skipped, processFonts demoList = .ok (kept, skipped) ∧
      kept.length + skipped = demoList.length :=
  c2_per_record_nonfatal demoList (by decide)

/-- C3 counterexample: a downloaded record with a local file and a JSON-null
`name` fails the name check but is not dropped-and-skip-counted; the run
errors out instead. -/
theorem c3_counterexample :
    processFonts [nullNameFontB] = .error .attributeError ∧
      processFonts [nullNameFontB] ≠ .ok ([], 1) := by decide

/-- C3 amended: on inputs in which no record has a JSON-null name passing
the downloaded and local-file checks, the kept records are exactly the
filter of the input by the three checks (downloaded, non-empty local file,
non-blank stripped name), in input order and fully enriched, and `skipped`
counts exactly the records failing the filter; a record failing any check
contributes nothing to the output. -/
theorem c3_filter_iff :
    ∀ fonts : List Font, (∀ f ∈ fonts, crashTrigger f = false) →
      processFonts fonts =
        .ok ((fonts.filter keepB).map enrichedOf,
             (fonts.filter fun f => !keepB f).length) ∧
      ∀ f : Font, keepB f = true ↔
        (f.downloaded = true ∧ f.local_file.getD "" ≠ "" ∧ stripStr f.name.orEmpty ≠ "") := by
  intro fonts h
  refine ⟨processFonts_ok fonts h, fun f => ?_⟩
  simp [keepB, Bool.and_eq_true, and_assoc]

/-- C3 witness: the filter equation evaluated on the demonstration list. -/
theorem c3_filter_iff_witness :
    processFonts demoList =
      .ok ((demoList.filter keepB).map enrichedOf,
           (demoList.filter fun f => !keepB f).length) :=
  (c3_filter_iff demoList (by decide)).1

/-- C4: the popularity scorer is total on every record: 7 for a source
count of at least 3, 5 for exactly 2, 3 for at most 1 or an absent field,
and the result is always one of 3, 5, 7. -/
theorem c4_popularity_cases :
    ∀ f : Font,
      (f.source_count = none → compute_popularity f = 3) ∧
      (∀ n : Int, f.source_count = some n →
        ((3 ≤ n → compute_popularity f = 7) ∧
         (n = 2 → compute_popularity f = 5) ∧
         (n ≤ 1 → compute_popularity f = 3))) ∧
      (compute_popularity f = 3 ∨ compute_popularity f = 5 ∨ compute_popularity f = 7) := by
  intro f
  refine ⟨fun h => ?_, fun n hn => ?_, ?_⟩
  · unfold compute_popularity
    rw [h]
    decide
  · unfold compute_popularity
    rw [hn]
    simp only [Option.getD_some]
    refine ⟨fun h3 => ?_, fun h2 => ?_, fun h1 => ?_⟩
    · rw [if_pos h3]
    · rw [if_neg (by omega), if_pos (by omega)]
    · rw [if_neg (by omega), if_neg (by omega)]
  · unfold compute_popularity
    dsimp only
    split_ifs <;> simp

/-- C4 witness: the scorer evaluated at a present and an absent count. -/
theorem c4_popularity_cases_witness :
    compute_popularity (fontOfSc (some 2)) = 5 ∧
      compute_popularity (fontOfSc none) = 3 :=
  ⟨((c4_popularity_cases (fontOfSc (some 2))).2.1 2 rfl).2.1 rfl,
   (c4_popularity_cases (fontOfSc none)).1 rfl⟩

/-- C5: popularity is monotone in the source count: two records identical
except for `source_count` never have the higher count scoring lower. -/
theorem c5_popularity_monotone :
    ∀ (f : Font) (a b : Option Int), a.getD 1 ≤ b.getD 1 →
      compute_popularity { f with source_count := a } ≤
        compute_popularity { f with source_count := b } := by
  intro f a b h
  show (if (3 : Int) ≤ a.getD 1 then (7 : Int) else if 2 ≤ a.getD 1 then 5 else 3) ≤
    (if (3 : Int) ≤ b.getD 1 then 7 else if 2 ≤ b.getD 1 then 5 else 3)
  split_ifs <;> omega

/-- C5 witness: a source count of 1 versus 5. -/
theorem c5_popularity_monotone_witness :
    compute_popularity { fontOfSc none with source_count := some 1 } ≤
      compute_popularity { fontOfSc none with source_count := some 5 } :=
  c5_popularity_monotone (fontOfSc none) (some 1) (some 5) (by decide)

/-- C8: the gothic scenario record is kept and enriched to category `sans`
(table hit on "gothic"), tags exactly the sorted deduplicated pair
インパクト/力強い, and popularity 7. -/
theorem c8_gothic_scenario :
    enrich_font testFont =
      .ok (some { name := "テスト角ゴシック", fontFamily := "テスト角ゴシック",
                  localFile := "test.ttf", category := "sans",
                  tags := ["インパクト", "力強い"], weight := [400, 400],
                  popularity := 7, description := "力強いゴシック体",
                  sourceCount := 3 }) := by decide

/-- C9: the pipeline output is a function of the input catalog alone; the
run date available at execution time is never read, so two runs on the same
input produce the identical output document. -/
theorem c9_idempotent :
    ∀ (catalog : List Font) (d1 d2 : String),
      run_main catalog d1 = run_main catalog d2 :=
  fun _ _ _ => rfl

/-- C10: whenever the pipeline produces an output document, its `generated`
field is the fixed literal "2026-02-26", independent of input and run date. -/
theorem c10_generated_literal :
    ∀ (catalog : List Font) (d : String) (out : Output),
      run_main catalog d = .ok out → out.generated = "2026-02-26" := by
  intro catalog d out h
  unfold run_main at h
  cases hp : processFonts catalog with
  | error e => rw [hp] at h; cases h
  | ok pr =>
    obtain ⟨enr, sk⟩ := pr
    rw [hp] at h
    cases h
    rfl

/-- C10 witness: the empty catalog run on an arbitrary date. -/
theorem c10_generated_literal_witness :
    ∃ out, run_main [] "2031-12-31" = .ok out ∧ out.generated = "2026-02-26" :=
  ⟨{ schema := "font-catalog-enriched", version := "1.0.0", generated := "2026-02-26",
     stats := { total := 0, skipped := 0, categories := [], toptags := [] }, fonts := [] },
   by decide, c10_generated_literal [] "2031-12-31" _ (by decide)⟩

/-- C6: for every record, the extracted tag list is non-empty, has no
duplicates, is sorted ascending in the code-point (alphabetical) order, and
every tag belongs to the fixed vocabulary; in particular this holds for
every kept record. -/
theorem c6_tags_invariant (f : Font) :
    extract_tags f ≠ [] ∧ (extract_tags f).Nodup ∧
      (extract_tags f).Sorted (· ≤ ·) ∧ ∀ t ∈ extract_tags f, t ∈ VOCAB := by
  rw [extract_tags_eq]
  refine ⟨sortedDedup_ne_nil _ (preTags_ne_nil f), sortedDedup_nodup _,
    sortedDedup_sorted _, fun t ht => ?_⟩
  exact preTags_subset_vocab f t ((mem_sortedDedup _ t).mp ht)

/-- C6 witness: the vocabulary clause instantiated on a concrete record. -/
theorem c6_tags_invariant_witness : "インパクト" ∈ VOCAB :=
  (c6_tags_invariant maruFont).2.2.2 "インパクト" (by decide)

/-- C7: in every produced output, adjacent records a then b satisfy
a.popularity > b.popularity, or equal popularity and a.name ≤ b.name; and
the sort is stable: any run of kept records with equal popularity and equal
name keeps its original relative order in the output. -/
theorem c7_sort_property :
    ∀ (fonts : List Font) (d : String) (out : Output),
      run_main fonts d = .ok out →
      out.fonts.Chain' specOrder ∧
      ∀ (kept : List Enriched) (skipped : Nat) (c : List Enriched),
        processFonts fonts = .ok (kept, skipped) → List.Sublist c kept →
        c.Pairwise sameKey → List.Sublist c out.fonts := by
  intro fonts d out h
  haveI : IsTotal Enriched (fun a b => fontLe a b = true) := ⟨fontLe_total⟩
  haveI : IsTrans Enriched (fun a b => fontLe a b = true) := ⟨fontLe_trans⟩
  unfold run_main at h
  cases hp : processFonts fonts with
  | error e => rw [hp] at h; cases h
  | ok pr =>
    obtain ⟨enr, sk⟩ := pr
    rw [hp] at h
    cases h
    constructor
    · have hs := List.sorted_insertionSort (fun a b => fontLe a b = true) enr
      exact (hs.imp fun hab => (fontLe_iff _ _).mp hab).chain'
    · intro kept skipped c hp' hsub hkey
      have h2 := Except.ok.inj hp'
      obtain ⟨rfl, rfl⟩ : enr = kept ∧ sk = skipped :=
        ⟨congrArg Prod.fst h2, congrArg Prod.snd h2⟩
      have hpair : c.Pairwise fun a b => fontLe a b = true :=
        hkey.imp fun hab => (fontLe_iff _ _).mpr (Or.inr ⟨hab.1, le_of_eq hab.2⟩)
      exact List.sublist_insertionSort hpair hsub

/-- C7 witness: a two-record tie (equal popularity and name) stays in input
order in the output and the adjacency property holds there. -/
theorem c7_sort_property_witness :
    ∃ out, run_main [twinFont1, twinFont2] "2026-02-26" = .ok out ∧
      out.fonts.Chain' specOrder ∧
      List.Sublist [enrichedOf twinFont1, enrichedOf twinFont2] out.fonts := by
  cases hm : run_main [twinFont1, twinFont2] "2026-02-26" with
  | error e =>
    cases e
    exact absurd hm (by decide)
  | ok out =>
    exact ⟨out, rfl, (c7_sort_property _ _ _ hm).1,
      (c7_sort_property _ _ _ hm).2 [enrichedOf twinFont1, enrichedOf twinFont2] 0 _
        (by decide) (List.Sublist.refl _) (by decide)⟩
